import Mathlib

/-!
Verification model of the cascade-db storage core.

The definitions below are a shallow embedding of the Rust sources:
 * `src/src/storage.rs`        — `AlignedBuf`, `PageId`, `UringStorage`
   (namespace `Uring` below);
 * `src/storage/src/traits.rs` — `PageId`, `Lsn`, `StorageError`;
 * `src/storage/src/core_storage.rs` — `CoreStorage` (namespace `Core` below).

Machine bytes are modelled as `Nat` (with `< 256` hypotheses where the value
range matters), `u32`/`u64` arithmetic as `Nat` with explicit `% 2 ^ 32` /
`% 2 ^ 64` where overflow is possible.  Fallible operations return
`Except`.  Kernel I/O outcomes (how many bytes a read or write transferred,
or which OS error occurred) are passed in as explicit parameters so that
every control path of the Rust functions is a reachable case of the model.
-/

/-- Error kinds of `std::io::ErrorKind` used by `storage.rs`:
`WriteZero` (short write), `UnexpectedEof` (short read), `InvalidData`
(checksum mismatch), plus a catch-all for kernel errors. -/
inductive ErrorKind where
  | writeZero
  | unexpectedEof
  | invalidData
  | notFound
  | other
deriving DecidableEq, Repr

/-- Model of `std::io::Error`: a kind plus a message. -/
structure IOErr where
  kind : ErrorKind
  msg : String
deriving DecidableEq, Repr

/-! ## CRC-32 (the `crc32fast` crate, standard reflected CRC-32/IEEE)

`storage.rs` computes `Hasher::new(); update(payload); finalize()`, which is
the standard CRC-32: state initialised to `0xFFFFFFFF`, per-byte table
update `s' = (s >>> 8) ^^^ table[(s ^^^ b) &&& 0xFF]` with the reflected
polynomial `0xEDB88320`, and final xor with `0xFFFFFFFF`. -/

def CRC_POLY : Nat := 0xEDB88320

/-- One bit step of the reflected CRC-32 table generator. -/
def crcStepBit (s : Nat) : Nat :=
  if s % 2 = 1 then (s / 2) ^^^ CRC_POLY else s / 2

/-- Table entry for byte `b`: eight bit steps starting from `b`. -/
def crcTableEntry (b : Nat) : Nat :=
  crcStepBit (crcStepBit (crcStepBit (crcStepBit
    (crcStepBit (crcStepBit (crcStepBit (crcStepBit (b % 256))))))))

/-- Per-byte CRC-32 state update. -/
def crcUpdate (s b : Nat) : Nat :=
  (s / 256) ^^^ crcTableEntry ((s % 256) ^^^ (b % 256))

/-- CRC-32 of a byte sequence, as computed by `crc32fast::Hasher`. -/
def crc32 (l : List Nat) : Nat :=
  (l.foldl crcUpdate 0xFFFFFFFF) ^^^ 0xFFFFFFFF

-- Bounds: the CRC state always stays below `2 ^ 32`.

theorem crcStepBit_lt {s : Nat} (h : s < 2 ^ 32) : crcStepBit s < 2 ^ 32 := by
  unfold crcStepBit
  split
  · exact Nat.xor_lt_two_pow (by omega) (by decide)
  · omega

theorem crcTableEntry_lt (b : Nat) : crcTableEntry b < 2 ^ 32 := by
  unfold crcTableEntry
  have h0 : b % 256 < 2 ^ 32 := by
    have := Nat.mod_lt b (y := 256) (by decide)
    omega
  exact crcStepBit_lt (crcStepBit_lt (crcStepBit_lt (crcStepBit_lt
    (crcStepBit_lt (crcStepBit_lt (crcStepBit_lt (crcStepBit_lt h0)))))))

theorem crcUpdate_lt (s b : Nat) (h : s < 2 ^ 32) : crcUpdate s b < 2 ^ 32 := by
  unfold crcUpdate
  exact Nat.xor_lt_two_pow (by omega) (crcTableEntry_lt _)

theorem crcFold_lt (l : List Nat) (s : Nat) (h : s < 2 ^ 32) :
    l.foldl crcUpdate s < 2 ^ 32 := by
  induction l generalizing s with
  | nil => simpa using h
  | cons b t ih => exact ih _ (crcUpdate_lt s b h)

theorem crc32_lt (l : List Nat) : crc32 l < 2 ^ 32 :=
  Nat.xor_lt_two_pow (crcFold_lt l _ (by decide)) (by decide)

/-- The 256-entry CRC-32 table generated by `crcTableEntry` (the table
`crc32fast` uses), listed literally so that facts about it are cheap to
check by `decide`. -/
def crcTable : List Nat := [
  0x00000000, 0x77073096, 0xEE0E612C, 0x990951BA, 0x076DC419, 0x706AF48F, 0xE963A535, 0x9E6495A3,
  0x0EDB8832, 0x79DCB8A4, 0xE0D5E91E, 0x97D2D988, 0x09B64C2B, 0x7EB17CBD, 0xE7B82D07, 0x90BF1D91,
  0x1DB71064, 0x6AB020F2, 0xF3B97148, 0x84BE41DE, 0x1ADAD47D, 0x6DDDE4EB, 0xF4D4B551, 0x83D385C7,
  0x136C9856, 0x646BA8C0, 0xFD62F97A, 0x8A65C9EC, 0x14015C4F, 0x63066CD9, 0xFA0F3D63, 0x8D080DF5,
  0x3B6E20C8, 0x4C69105E, 0xD56041E4, 0xA2677172, 0x3C03E4D1, 0x4B04D447, 0xD20D85FD, 0xA50AB56B,
  0x35B5A8FA, 0x42B2986C, 0xDBBBC9D6, 0xACBCF940, 0x32D86CE3, 0x45DF5C75, 0xDCD60DCF, 0xABD13D59,
  0x26D930AC, 0x51DE003A, 0xC8D75180, 0xBFD06116, 0x21B4F4B5, 0x56B3C423, 0xCFBA9599, 0xB8BDA50F,
  0x2802B89E, 0x5F058808, 0xC60CD9B2, 0xB10BE924, 0x2F6F7C87, 0x58684C11, 0xC1611DAB, 0xB6662D3D,
  0x76DC4190, 0x01DB7106, 0x98D220BC, 0xEFD5102A, 0x71B18589, 0x06B6B51F, 0x9FBFE4A5, 0xE8B8D433,
  0x7807C9A2, 0x0F00F934, 0x9609A88E, 0xE10E9818, 0x7F6A0DBB, 0x086D3D2D, 0x91646C97, 0xE6635C01,
  0x6B6B51F4, 0x1C6C6162, 0x856530D8, 0xF262004E, 0x6C0695ED, 0x1B01A57B, 0x8208F4C1, 0xF50FC457,
  0x65B0D9C6, 0x12B7E950, 0x8BBEB8EA, 0xFCB9887C, 0x62DD1DDF, 0x15DA2D49, 0x8CD37CF3, 0xFBD44C65,
  0x4DB26158, 0x3AB551CE, 0xA3BC0074, 0xD4BB30E2, 0x4ADFA541, 0x3DD895D7, 0xA4D1C46D, 0xD3D6F4FB,
  0x4369E96A, 0x346ED9FC, 0xAD678846, 0xDA60B8D0, 0x44042D73, 0x33031DE5, 0xAA0A4C5F, 0xDD0D7CC9,
  0x5005713C, 0x270241AA, 0xBE0B1010, 0xC90C2086, 0x5768B525, 0x206F85B3, 0xB966D409, 0xCE61E49F,
  0x5EDEF90E, 0x29D9C998, 0xB0D09822, 0xC7D7A8B4, 0x59B33D17, 0x2EB40D81, 0xB7BD5C3B, 0xC0BA6CAD,
  0xEDB88320, 0x9ABFB3B6, 0x03B6E20C, 0x74B1D29A, 0xEAD54739, 0x9DD277AF, 0x04DB2615, 0x73DC1683,
  0xE3630B12, 0x94643B84, 0x0D6D6A3E, 0x7A6A5AA8, 0xE40ECF0B, 0x9309FF9D, 0x0A00AE27, 0x7D079EB1,
  0xF00F9344, 0x8708A3D2, 0x1E01F268, 0x6906C2FE, 0xF762575D, 0x806567CB, 0x196C3671, 0x6E6B06E7,
  0xFED41B76, 0x89D32BE0, 0x10DA7A5A, 0x67DD4ACC, 0xF9B9DF6F, 0x8EBEEFF9, 0x17B7BE43, 0x60B08ED5,
  0xD6D6A3E8, 0xA1D1937E, 0x38D8C2C4, 0x4FDFF252, 0xD1BB67F1, 0xA6BC5767, 0x3FB506DD, 0x48B2364B,
  0xD80D2BDA, 0xAF0A1B4C, 0x36034AF6, 0x41047A60, 0xDF60EFC3, 0xA867DF55, 0x316E8EEF, 0x4669BE79,
  0xCB61B38C, 0xBC66831A, 0x256FD2A0, 0x5268E236, 0xCC0C7795, 0xBB0B4703, 0x220216B9, 0x5505262F,
  0xC5BA3BBE, 0xB2BD0B28, 0x2BB45A92, 0x5CB36A04, 0xC2D7FFA7, 0xB5D0CF31, 0x2CD99E8B, 0x5BDEAE1D,
  0x9B64C2B0, 0xEC63F226, 0x756AA39C, 0x026D930A, 0x9C0906A9, 0xEB0E363F, 0x72076785, 0x05005713,
  0x95BF4A82, 0xE2B87A14, 0x7BB12BAE, 0x0CB61B38, 0x92D28E9B, 0xE5D5BE0D, 0x7CDCEFB7, 0x0BDBDF21,
  0x86D3D2D4, 0xF1D4E242, 0x68DDB3F8, 0x1FDA836E, 0x81BE16CD, 0xF6B9265B, 0x6FB077E1, 0x18B74777,
  0x88085AE6, 0xFF0F6A70, 0x66063BCA, 0x11010B5C, 0x8F659EFF, 0xF862AE69, 0x616BFFD3, 0x166CCF45,
  0xA00AE278, 0xD70DD2EE, 0x4E048354, 0x3903B3C2, 0xA7672661, 0xD06016F7, 0x4969474D, 0x3E6E77DB,
  0xAED16A4A, 0xD9D65ADC, 0x40DF0B66, 0x37D83BF0, 0xA9BCAE53, 0xDEBB9EC5, 0x47B2CF7F, 0x30B5FFE9,
  0xBDBDF21C, 0xCABAC28A, 0x53B39330, 0x24B4A3A6, 0xBAD03605, 0xCDD70693, 0x54DE5729, 0x23D967BF,
  0xB3667A2E, 0xC4614AB8, 0x5D681B02, 0x2A6F2B94, 0xB40BBE37, 0xC30C8EA1, 0x5A05DF1B, 0x2D02EF8D]

set_option maxRecDepth 4000 in
theorem crcTableEntry_eq_table : ∀ i < 256, crcTableEntry i = crcTable.getD i 0 := by
  decide

set_option maxRecDepth 4000 in
theorem crcTable_tops_nodup : (crcTable.map (fun t => t / 2 ^ 24)).Nodup := by
  decide

set_option maxRecDepth 4000 in
theorem crcTable_length : crcTable.length = 256 := by decide

/-! ### CRC-32 detects every single-byte difference

The per-byte update is injective in the state (for a fixed byte) and in the
byte (for a fixed state); both facts come down to the CRC table having
pairwise-distinct top bytes, which is checked on the literal table. -/

theorem xor_right_cancel {a b c : Nat} (h : a ^^^ c = b ^^^ c) : a = b := by
  have h2 := congrArg (fun x => x ^^^ c) h
  simpa [Nat.xor_assoc] using h2

theorem xor_left_cancel {a b c : Nat} (h : c ^^^ a = c ^^^ b) : a = b := by
  have h2 := congrArg (fun x => c ^^^ x) h
  simpa [← Nat.xor_assoc] using h2

theorem crcTableEntry_top_ne {i j : Nat} (hi : i < 256) (hj : j < 256)
    (hij : i ≠ j) : crcTableEntry i / 2 ^ 24 ≠ crcTableEntry j / 2 ^ 24 := by
  have hi' : i < crcTable.length := by rw [crcTable_length]; exact hi
  have hj' : j < crcTable.length := by rw [crcTable_length]; exact hj
  have ei : crcTableEntry i = crcTable[i] := by
    rw [crcTableEntry_eq_table i hi]
    simp [List.getElem?_eq_getElem hi']
  have ej : crcTableEntry j = crcTable[j] := by
    rw [crcTableEntry_eq_table j hj]
    simp [List.getElem?_eq_getElem hj']
  rw [ei, ej]
  intro h
  have hmi : i < (crcTable.map (fun t => t / 2 ^ 24)).length := by
    simpa using hi'
  have hmj : j < (crcTable.map (fun t => t / 2 ^ 24)).length := by
    simpa using hj'
  have hmap : (crcTable.map (fun t => t / 2 ^ 24)).get ⟨i, hmi⟩ =
      (crcTable.map (fun t => t / 2 ^ 24)).get ⟨j, hmj⟩ := by
    simp only [List.get_eq_getElem, List.getElem_map]
    exact h
  exact hij (congrArg Fin.val (crcTable_tops_nodup.get_inj_iff.mp hmap))

theorem xor_div_two_pow_24 (a t : Nat) (ha : a < 2 ^ 24) :
    (a ^^^ t) / 2 ^ 24 = t / 2 ^ 24 := by
  rw [← Nat.shiftRight_eq_div_pow, ← Nat.shiftRight_eq_div_pow]
  apply Nat.eq_of_testBit_eq
  intro k
  have hz : a.testBit (24 + k) = false :=
    Nat.testBit_lt_two_pow
      (lt_of_lt_of_le ha (Nat.pow_le_pow_right (by decide) (by omega)))
  simp [Nat.testBit_shiftRight, Nat.testBit_xor, hz]

theorem crcUpdate_div (s b : Nat) (hs : s < 2 ^ 32) :
    crcUpdate s b / 2 ^ 24 = crcTableEntry ((s % 256) ^^^ (b % 256)) / 2 ^ 24 := by
  unfold crcUpdate
  exact xor_div_two_pow_24 _ _ (by omega)

theorem crcUpdate_inj_state {s1 s2 : Nat} (b : Nat) (h1 : s1 < 2 ^ 32)
    (h2 : s2 < 2 ^ 32) (hne : s1 ≠ s2) : crcUpdate s1 b ≠ crcUpdate s2 b := by
  by_cases hlow : s1 % 256 = s2 % 256
  · intro h
    unfold crcUpdate at h
    rw [hlow] at h
    have := xor_right_cancel h
    omega
  · have hidx : (s1 % 256) ^^^ (b % 256) ≠ (s2 % 256) ^^^ (b % 256) := by
      intro hh
      exact hlow (xor_right_cancel hh)
    have hlt1 : (s1 % 256) ^^^ (b % 256) < 256 :=
      Nat.xor_lt_two_pow (n := 8) (by omega) (by omega)
    have hlt2 : (s2 % 256) ^^^ (b % 256) < 256 :=
      Nat.xor_lt_two_pow (n := 8) (by omega) (by omega)
    intro h
    have htop := congrArg (fun x => x / 2 ^ 24) h
    simp only [crcUpdate_div _ _ h1, crcUpdate_div _ _ h2] at htop
    exact crcTableEntry_top_ne hlt1 hlt2 hidx htop

theorem crcUpdate_inj_byte {x y : Nat} (s : Nat) (hxy : x % 256 ≠ y % 256) :
    crcUpdate s x ≠ crcUpdate s y := by
  intro h
  unfold crcUpdate at h
  have hT := xor_left_cancel h
  have hidx : (s % 256) ^^^ (x % 256) ≠ (s % 256) ^^^ (y % 256) := by
    intro hh
    exact hxy (xor_left_cancel hh)
  have hlt1 : (s % 256) ^^^ (x % 256) < 256 :=
    Nat.xor_lt_two_pow (n := 8) (by omega) (by omega)
  have hlt2 : (s % 256) ^^^ (y % 256) < 256 :=
    Nat.xor_lt_two_pow (n := 8) (by omega) (by omega)
  exact crcTableEntry_top_ne hlt1 hlt2 hidx (congrArg (fun t => t / 2 ^ 24) hT)

theorem crcFold_ne (l : List Nat) : ∀ s1 s2, s1 < 2 ^ 32 → s2 < 2 ^ 32 →
    s1 ≠ s2 → l.foldl crcUpdate s1 ≠ l.foldl crcUpdate s2 := by
  induction l with
  | nil => intro s1 s2 _ _ h; simpa using h
  | cons b t ih =>
    intro s1 s2 h1 h2 hne
    simp only [List.foldl_cons]
    exact ih _ _ (crcUpdate_lt _ _ h1) (crcUpdate_lt _ _ h2)
      (crcUpdate_inj_state b h1 h2 hne)

/-- Two byte lists that agree everywhere except at exactly one position,
where the byte values differ modulo 256. -/
inductive SingleDiff : List Nat → List Nat → Prop where
  | head {x y : Nat} (t : List Nat) (hxy : x % 256 ≠ y % 256) :
      SingleDiff (x :: t) (y :: t)
  | cons (b : Nat) {t1 t2 : List Nat} (h : SingleDiff t1 t2) :
      SingleDiff (b :: t1) (b :: t2)

theorem crc32_ne_of_singleDiff {l1 l2 : List Nat} (h : SingleDiff l1 l2) :
    crc32 l1 ≠ crc32 l2 := by
  have key : ∀ s, s < 2 ^ 32 → l1.foldl crcUpdate s ≠ l2.foldl crcUpdate s := by
    induction h with
    | head t hxy =>
      intro s hs
      simp only [List.foldl_cons]
      exact crcFold_ne t _ _ (crcUpdate_lt _ _ hs) (crcUpdate_lt _ _ hs)
        (crcUpdate_inj_byte s hxy)
    | cons b h ih =>
      intro s hs
      simp only [List.foldl_cons]
      exact ih _ (crcUpdate_lt _ _ hs)
  intro hc
  unfold crc32 at hc
  exact key 0xFFFFFFFF (by decide) (xor_right_cancel hc)

theorem singleDiff_map_range :
    ∀ (j n : Nat) (f g : Nat → Nat), j < n → (∀ i, i < n → i ≠ j → f i = g i) →
      f j % 256 ≠ g j % 256 →
      SingleDiff ((List.range n).map f) ((List.range n).map g) := by
  intro j
  induction j with
  | zero =>
    intro n f g hj hsame hne
    obtain ⟨m, rfl⟩ : ∃ m, n = m + 1 := ⟨n - 1, by omega⟩
    rw [List.range_succ_eq_map]
    simp only [List.map_cons, List.map_map]
    have htail : (List.range m).map (f ∘ Nat.succ) = (List.range m).map (g ∘ Nat.succ) := by
      apply List.map_congr_left
      intro i hi
      have him := List.mem_range.mp hi
      exact hsame (i + 1) (by omega) (by omega)
    rw [htail]
    exact SingleDiff.head _ hne
  | succ j ih =>
    intro n f g hj hsame hne
    obtain ⟨m, rfl⟩ : ∃ m, n = m + 1 := ⟨n - 1, by omega⟩
    rw [List.range_succ_eq_map]
    simp only [List.map_cons, List.map_map]
    have h0 : f 0 = g 0 := hsame 0 (by omega) (by omega)
    rw [h0]
    exact SingleDiff.cons _ (ih m (f ∘ Nat.succ) (g ∘ Nat.succ) (by omega)
      (fun i hi hij => hsame (i + 1) (by omega) (by omega)) hne)

/-- CRC-32 over an index range of a byte function changes whenever exactly
one position changes (modulo 256). -/
theorem crc32_map_range_ne {f g : Nat → Nat} {n j : Nat} (hj : j < n)
    (hsame : ∀ i, i < n → i ≠ j → f i = g i) (hne : f j % 256 ≠ g j % 256) :
    crc32 ((List.range n).map f) ≠ crc32 ((List.range n).map g) :=
  crc32_ne_of_singleDiff (singleDiff_map_range j n f g hj hsame hne)

/-! ## `AlignedBuf` (`src/src/storage.rs` lines 27-106)

The Rust type owns `layout.size()` bytes of 4096-aligned memory and tracks
`init`, the number of initialized bytes.  The memory contents are modelled
as a total function `data : Nat → Nat` (indices `≥ cap` are never read by
the code); `cap` models `layout.size()`.  Alignment itself is a property of
the allocator call and has no observable effect in the model. -/

structure AlignedBuf where
  cap : Nat
  data : Nat → Nat
  init : Nat

namespace AlignedBuf

/-- `AlignedBuf::len`. -/
def len (b : AlignedBuf) : Nat := b.cap

/-- `AlignedBuf::set_init_len`: `self.init = n.min(self.layout.size())`. -/
def set_init_len (b : AlignedBuf) (n : Nat) : AlignedBuf :=
  { b with init := min n b.cap }

/-- `IoBufMut::set_init` (the tokio-uring completion hook):
`if pos > self.init { self.init = pos.min(size) }`. -/
def set_init (b : AlignedBuf) (pos : Nat) : AlignedBuf :=
  if pos > b.init then { b with init := min pos b.cap } else b

/-- `AlignedBuf::ensure_init_up_to`: when `init` is behind
`target = n.min(size)`, zero-fill `[init, target)` and advance `init`. -/
def ensure_init_up_to (b : AlignedBuf) (n : Nat) : AlignedBuf :=
  let target := min n b.cap
  if b.init < target then
    { b with
      data := fun i => if b.init ≤ i ∧ i < target then 0 else b.data i,
      init := target }
  else b

end AlignedBuf

/-- On-disk state shared by both backends: byte content of every
(path, byte offset).  Files are created on open and `fallocate` makes
unwritten bytes read as zero, which the all-zero initial disk models. -/
def Disk : Type := String → Nat → Nat

/-- Result of a submitted kernel I/O operation: an OS error, or `n` bytes
transferred. -/
inductive KOutcome where
  | err (e : IOErr)
  | ok (n : Nat)

/-- Write `n` bytes taken from `src` to `path` at `offset`. -/
def diskWrite (d : Disk) (path : String) (offset : Nat) (src : Nat → Nat)
    (n : Nat) : Disk :=
  fun p i =>
    if p = path ∧ offset ≤ i ∧ i < offset + n then src (i - offset) else d p i

/-! ## The stateless io_uring backend (`UringStorage`, `src/src/storage.rs`)

File-system state is a total map from (path, byte index) to byte value;
segment files are `fallocate`d to full size on open and unwritten bytes
read as zero, which the all-zero initial disk models.  The outcome of each
kernel interaction is passed in explicitly: `openO = some e` means
`open_segment` failed with `e`; `KOutcome.err e` means the submitted I/O
completed with error `e`; `KOutcome.ok n` means the kernel transferred `n`
bytes. -/

namespace Uring

def PAGE_SIZE : Nat := 8192

def PAGES_PER_SEGMENT : Nat := 131072

/-- `PageId` of `src/src/storage.rs` (single-tenant: no `db_id`). -/
structure PageId where
  space_id : Nat
  page_no : Nat
deriving DecidableEq, Repr

/-- Zero-pad a number to at least four digits — Rust's `{:04}` format. -/
def pad4 (n : Nat) : String :=
  let s := toString n
  String.mk (List.replicate (4 - s.length) '0') ++ s

/-- `UringStorage::get_location`. -/
def get_location (basePath : String) (pid : PageId) : String × Nat :=
  let segment_no := pid.page_no / PAGES_PER_SEGMENT
  let local_page_no := pid.page_no % PAGES_PER_SEGMENT
  let filename :=
    "space_" ++ toString pid.space_id ++ "_seg_" ++ pad4 segment_no ++ ".db"
  (basePath ++ "/" ++ filename, local_page_no * PAGE_SIZE)

/-- The page payload bytes `[4, PAGE_SIZE)` of a byte function, as the list
hashed by `write_page`/`read_page`. -/
def payloadSlice (f : Nat → Nat) : List Nat :=
  (List.range (PAGE_SIZE - 4)).map (fun i => f (4 + i))

/-- `u32::to_be_bytes`: byte `i` (0-based, big-endian) of a 32-bit value. -/
def beByte (c i : Nat) : Nat :=
  if i = 0 then c / 2 ^ 24 % 256
  else if i = 1 then c / 2 ^ 16 % 256
  else if i = 2 then c / 2 ^ 8 % 256
  else c % 256

/-- `u32::from_be_bytes` over the first four bytes of a byte function. -/
def be32 (f : Nat → Nat) : Nat :=
  f 0 * 2 ^ 24 + f 1 * 2 ^ 16 + f 2 * 2 ^ 8 + f 3

/-- The checksum-mismatch error constructed by `read_page`
(`io::Error::new(InvalidData, "Checksum mismatch")`). -/
def corruptionErr : IOErr := ⟨ErrorKind.invalidData, "Checksum mismatch"⟩

/-- The short-write error of `write_page` (`ErrorKind::WriteZero`). -/
def shortWriteErr (n : Nat) : IOErr :=
  ⟨ErrorKind.writeZero,
    "short write: " ++ toString n ++ " bytes (expected " ++
      toString PAGE_SIZE ++ ")"⟩

/-- The short-read error of `read_page` (`ErrorKind::UnexpectedEof`). -/
def shortReadErr (n : Nat) : IOErr :=
  ⟨ErrorKind.unexpectedEof,
    "short read: " ++ toString n ++ " bytes (expected " ++
      toString PAGE_SIZE ++ ")"⟩

/-- The buffer as stamped by `write_page` before submission: full-page
initialization (`ensure_init_up_to(PAGE_SIZE)`), then the CRC-32 of payload
bytes `[4, PAGE_SIZE)` stored big-endian into bytes `[0, 4)`. -/
def stamped (buf : AlignedBuf) : AlignedBuf :=
  let buf1 := buf.ensure_init_up_to PAGE_SIZE
  let checksum := crc32 (payloadSlice buf1.data)
  { buf1 with data := fun i => if i < 4 then beByte checksum i else buf1.data i }

/-- `UringStorage::write_page`: stamp the page, open the segment, submit the
write.  Rust returns `(io::Result<()>, AlignedBuf)`; the model additionally
returns the resulting disk.  On `Ok(n)` the kernel stored the first
`min n init` submitted bytes.  (For buffers smaller than a page the Rust
code panics at the `[4..PAGE_SIZE]` slice; theorems therefore assume
`cap = PAGE_SIZE`.) -/
def write_page (basePath : String) (disk : Disk) (pid : PageId)
    (buf : AlignedBuf) (openO : Option IOErr) (wO : KOutcome) :
    (Except IOErr Unit × AlignedBuf) × Disk :=
  let buf2 := stamped buf
  let loc := get_location basePath pid
  match openO with
  | some e => ((Except.error e, buf2), disk)
  | none =>
    match wO with
    | KOutcome.err e => ((Except.error e, buf2), disk)
    | KOutcome.ok n =>
      let disk2 := diskWrite disk loc.1 loc.2 buf2.data (min n buf2.init)
      if n = PAGE_SIZE then ((Except.ok (), buf2), disk2)
      else ((Except.error (shortWriteErr n), buf2), disk2)

/-- `UringStorage::read_page`: open the segment, submit the read.  On
`Ok(n)` the kernel filled the first `n` buffer bytes from the file and the
runtime advanced `init` (`IoBufMut::set_init`); the code then calls
`set_init_len(n)`, reports a short read if `n ≠ PAGE_SIZE`, and otherwise
recomputes the payload CRC and compares it with the stored header. -/
def read_page (basePath : String) (disk : Disk) (pid : PageId)
    (buf : AlignedBuf) (openO : Option IOErr) (rO : KOutcome) :
    Except IOErr Unit × AlignedBuf :=
  let loc := get_location basePath pid
  match openO with
  | some e => (Except.error e, buf)
  | none =>
    match rO with
    | KOutcome.err e => (Except.error e, buf)
    | KOutcome.ok n =>
      let filled : AlignedBuf :=
        { buf with
          data := fun i => if i < n then disk loc.1 (loc.2 + i) else buf.data i }
      let buf1 := (filled.set_init n).set_init_len n
      if n ≠ PAGE_SIZE then (Except.error (shortReadErr n), buf1)
      else
        let stored := be32 buf1.data
        let computed := crc32 (payloadSlice buf1.data)
        if stored ≠ computed then (Except.error corruptionErr, buf1)
        else (Except.ok (), buf1)

end Uring

/-! ## The resident thread-per-core backend (`CoreStorage`,
`src/storage/src/core_storage.rs`; types from `src/storage/src/traits.rs`)

The core-local state (file-handle caches, WAL tail offsets) is explicit; in
addition the state carries the trace of kernel operations the backend has
issued, so that file I/O — and its absence — is observable in the model.
`todo!()` bodies in the source (`get_wal_file`, `read_pages`,
`write_pages`, extents, `truncate_wal`) are not modelled. -/

namespace Core

/-- `PageId` of `src/storage/src/traits.rs` (multi-tenant). -/
structure PageId where
  db_id : Nat
  space_id : Nat
  page_no : Nat
deriving DecidableEq, Repr

/-- `Lsn(pub u64)`: byte offset into a database's WAL. -/
structure Lsn where
  off : Nat
deriving DecidableEq, Repr

/-- `StorageError` of `src/storage/src/traits.rs`. -/
inductive StorageError where
  | Io (e : IOErr)
  | Corruption (pid : PageId)
  | UnalignedBuffer
  | OutOfSpace
  | ShortRead
deriving DecidableEq, Repr

/-- `PAGE_SIZE` constant of `core_storage.rs`. -/
def PAGE_SIZE : Nat := 8192

/-- A kernel operation issued by the backend, recorded in the I/O trace. -/
inductive IOEvent where
  | openData (db space : Nat)
  | readAt (path : String) (offset : Nat)
  | writeAt (path : String) (offset : Nat)
deriving DecidableEq, Repr

/-- The `CoreStorage` struct: cached data/WAL file handles (modelled by
presence of an entry), per-database WAL tail offsets, plus the trace of
issued kernel operations (a modelling addition). -/
structure CoreStorage where
  core_id : Nat
  base_data_dir : String
  base_wal_dir : String
  data_files : Nat × Nat → Option Unit
  wal_files : Nat → Option Unit
  wal_offsets : Nat → Option Nat
  ioTrace : List IOEvent

/-- Path of the data file for `(db_id, space_id)`:
`base_data_dir/db_{db}/space_{space}.dat` (`get_data_file`). -/
def dataPath (st : CoreStorage) (db space : Nat) : String :=
  st.base_data_dir ++ "/db_" ++ toString db ++ "/space_" ++
    toString space ++ ".dat"

/-- `CoreStorage::get_data_file`: return the cached handle, or open the
file (outcome `openO`) and cache it. -/
def get_data_file (st : CoreStorage) (db space : Nat) (openO : Option IOErr) :
    CoreStorage × Except StorageError Unit :=
  match st.data_files (db, space) with
  | some _ => (st, Except.ok ())
  | none =>
    match openO with
    | some e =>
      ({ st with ioTrace := st.ioTrace ++ [IOEvent.openData db space] },
        Except.error (StorageError.Io e))
    | none =>
      ({ st with
          data_files := fun k =>
            if k = (db, space) then some () else st.data_files k,
          ioTrace := st.ioTrace ++ [IOEvent.openData db space] },
        Except.ok ())

/-- `PageStore::read_page` for `CoreStorage` (`core_storage.rs` 62-85):
resolve the cached file, read at `page_no * PAGE_SIZE`, pass kernel errors
through as `StorageError::Io`.  There is no short-read check and no
checksum validation (the `TODO` in the source); the runtime advances
`init` through `IoBufMut::set_init`. -/
def read_page (st : CoreStorage) (disk : Disk) (pid : PageId)
    (buf : AlignedBuf) (openO : Option IOErr) (rO : KOutcome) :
    CoreStorage × (AlignedBuf × Except StorageError Unit) :=
  match get_data_file st pid.db_id pid.space_id openO with
  | (st1, Except.error e) => (st1, (buf, Except.error e))
  | (st1, Except.ok _) =>
    let offset := pid.page_no * PAGE_SIZE
    let path := dataPath st pid.db_id pid.space_id
    let st2 := { st1 with ioTrace := st1.ioTrace ++ [IOEvent.readAt path offset] }
    match rO with
    | KOutcome.err e => (st2, (buf, Except.error (StorageError.Io e)))
    | KOutcome.ok n =>
      let filled : AlignedBuf :=
        { buf with
          data := fun i => if i < n then disk path (offset + i) else buf.data i }
      (st2, (filled.set_init n, Except.ok ()))

/-- `PageStore::write_page` for `CoreStorage` (`core_storage.rs` 87-107):
resolve the cached file, write at `page_no * PAGE_SIZE`; `Ok(_)` is success
regardless of how many bytes were transferred (no short-write check), and
no checksum is stamped. -/
def write_page (st : CoreStorage) (disk : Disk) (pid : PageId)
    (buf : AlignedBuf) (openO : Option IOErr) (wO : KOutcome) :
    (CoreStorage × Disk) × (AlignedBuf × Except StorageError Unit) :=
  match get_data_file st pid.db_id pid.space_id openO with
  | (st1, Except.error e) => ((st1, disk), (buf, Except.error e))
  | (st1, Except.ok _) =>
    let offset := pid.page_no * PAGE_SIZE
    let path := dataPath st pid.db_id pid.space_id
    let st2 := { st1 with ioTrace := st1.ioTrace ++ [IOEvent.writeAt path offset] }
    match wO with
    | KOutcome.err e => ((st2, disk), (buf, Except.error (StorageError.Io e)))
    | KOutcome.ok n =>
      let disk2 := diskWrite disk path offset buf.data (min n buf.init)
      ((st2, disk2), (buf, Except.ok ()))

/-- `WalStore::append_wal` for `CoreStorage` (`core_storage.rs` 147-159):
read the tail offset for `db_id` (inserting 0 if absent), return it as the
LSN, advance the tail by the payload length (u64 arithmetic).  The body
issues no kernel operation. -/
def append_wal (st : CoreStorage) (db : Nat) (payload : List Nat) :
    CoreStorage × Except StorageError Lsn :=
  let current := (st.wal_offsets db).getD 0
  ({ st with
      wal_offsets := fun d =>
        if d = db then some ((current + payload.length) % 2 ^ 64)
        else st.wal_offsets d },
    Except.ok ⟨current⟩)

/-- A sequence of `append_wal` calls for one database: final state and the
LSN byte offsets handed out, in call order. -/
def runAppends (db : Nat) : CoreStorage → List (List Nat) → CoreStorage × List Nat
  | st, [] => (st, [])
  | st, p :: rest =>
    let a := append_wal st db p
    let lsn := match a.2 with | Except.ok l => l.off | Except.error _ => 0
    let r := runAppends db a.1 rest
    (r.1, lsn :: r.2)

end Core

/-- Partial sums: `psums [l1, l2, l3] = [0, l1, l1 + l2]` — the LSNs the
spec expects successive appends to return. -/
def psums : List Nat → List Nat
  | [] => []
  | l :: ls => 0 :: (psums ls).map (fun s => l + s)

/-! ## Buffer lemmas and claims C7, C8 -/

/-- The two branches of `ensure_init_up_to`, as rewrite rules. -/
theorem ensure_pos (b : AlignedBuf) (n : Nat) (h : b.init < min n b.cap) :
    b.ensure_init_up_to n =
      { b with
        data := fun i => if b.init ≤ i ∧ i < min n b.cap then 0 else b.data i,
        init := min n b.cap } := by
  simp only [AlignedBuf.ensure_init_up_to]
  rw [if_pos h]

theorem ensure_neg (b : AlignedBuf) (n : Nat) (h : ¬ b.init < min n b.cap) :
    b.ensure_init_up_to n = b := by
  simp only [AlignedBuf.ensure_init_up_to]
  rw [if_neg h]

/-- The net effect of the completion hook followed by `set_init_len(n)`,
as `UringStorage::read_page` performs it. -/
theorem set_init_then_len (b : AlignedBuf) (n : Nat) :
    (b.set_init n).set_init_len n = { b with init := min n b.cap } := by
  unfold AlignedBuf.set_init AlignedBuf.set_init_len
  split <;> rfl

/-- **C7** (amended): across every buffer operation the initialized length
never exceeds capacity; the `IoBufMut::set_init` hook is clamped to
capacity and increase-only (given the `init ≤ cap` invariant); and
`set_init_len` is clamped to capacity — but it sets the length outright
rather than only increasing it. -/
theorem buffer_init_clamped :
    (∀ (b : AlignedBuf) (n : Nat), (b.set_init_len n).init = min n b.cap) ∧
    (∀ (b : AlignedBuf) (n : Nat), (b.set_init_len n).init ≤ b.cap) ∧
    (∀ (b : AlignedBuf) (pos : Nat), b.init ≤ b.cap →
      b.init ≤ (b.set_init pos).init) ∧
    (∀ (b : AlignedBuf) (pos : Nat), b.init ≤ b.cap →
      (b.set_init pos).init ≤ b.cap) ∧
    (∀ (b : AlignedBuf) (n : Nat), b.init ≤ (b.ensure_init_up_to n).init) ∧
    (∀ (b : AlignedBuf) (n : Nat), b.init ≤ b.cap →
      (b.ensure_init_up_to n).init ≤ b.cap) := by
  refine ⟨fun b n => rfl, fun b n => ?_, fun b pos h => ?_, fun b pos h => ?_,
    fun b n => ?_, fun b n h => ?_⟩
  · show min n b.cap ≤ b.cap
    omega
  · unfold AlignedBuf.set_init
    split
    · show b.init ≤ min pos b.cap
      omega
    · exact Nat.le_refl _
  · unfold AlignedBuf.set_init
    split
    · show min pos b.cap ≤ b.cap
      omega
    · exact h
  · by_cases hc : b.init < min n b.cap
    · rw [ensure_pos b n hc]
      show b.init ≤ min n b.cap
      omega
    · rw [ensure_neg b n hc]
  · by_cases hc : b.init < min n b.cap
    · rw [ensure_pos b n hc]
      show min n b.cap ≤ b.cap
      omega
    · rw [ensure_neg b n hc]
      exact h

/-- Witness for `buffer_init_clamped` at a concrete buffer. -/
theorem buffer_init_clamped_witness :
    ((⟨16, fun _ => 0, 4⟩ : AlignedBuf).init ≤ 16) ∧
    (⟨16, fun _ => 0, 4⟩ : AlignedBuf).init ≤
      ((⟨16, fun _ => 0, 4⟩ : AlignedBuf).set_init 9).init :=
  ⟨by decide, buffer_init_clamped.2.2.1 ⟨16, fun _ => 0, 4⟩ 9 (by decide)⟩

/-- **C7 counterexample**: `set_init_len` (storage.rs lines 61-63) can
*decrease* the initialized length — `read_page` itself relies on this to
shrink `init` to the bytes actually read — refuting "the set-initialized
operation may only increase the initialized length, never decrease it". -/
theorem set_init_len_can_decrease :
    (AlignedBuf.set_init_len ⟨10, fun _ => 0, 5⟩ 2).init <
      (⟨10, fun _ => 0, 5⟩ : AlignedBuf).init := by
  decide

/-- **C8**: `ensure_init_up_to(n)` never decreases `initialized`; the bytes
it newly brings into the initialized prefix are exactly zero; and calling
it again with the same or a smaller bound leaves the buffer unchanged. -/
theorem ensure_init_up_to_spec (b : AlignedBuf) (n : Nat) :
    b.init ≤ (b.ensure_init_up_to n).init ∧
    (∀ i, b.init ≤ i → i < min n b.cap → (b.ensure_init_up_to n).data i = 0) ∧
    (∀ m, m ≤ n →
      (b.ensure_init_up_to n).ensure_init_up_to m = b.ensure_init_up_to n) := by
  by_cases h : b.init < min n b.cap
  · rw [ensure_pos b n h]
    refine ⟨by show b.init ≤ min n b.cap; omega, ?_, ?_⟩
    · intro i h1 h2
      exact if_pos ⟨h1, h2⟩
    · intro m hm
      exact ensure_neg _ m (by show ¬ min n b.cap < min m b.cap; omega)
  · rw [ensure_neg b n h]
    refine ⟨Nat.le_refl _, ?_, ?_⟩
    · intro i h1 h2
      omega
    · intro m hm
      exact ensure_neg b m (by omega)

/-- Witness for `ensure_init_up_to_spec` at a concrete buffer. -/
theorem ensure_init_up_to_spec_witness :
    (⟨8, fun _ => 7, 3⟩ : AlignedBuf).init ≤
      ((⟨8, fun _ => 7, 3⟩ : AlignedBuf).ensure_init_up_to 6).init ∧
    ((⟨8, fun _ => 7, 3⟩ : AlignedBuf).ensure_init_up_to 6).data 4 = 0 ∧
    (((⟨8, fun _ => 7, 3⟩ : AlignedBuf).ensure_init_up_to 6).ensure_init_up_to 5 =
      (⟨8, fun _ => 7, 3⟩ : AlignedBuf).ensure_init_up_to 6) :=
  ⟨(ensure_init_up_to_spec ⟨8, fun _ => 7, 3⟩ 6).1,
    (ensure_init_up_to_spec ⟨8, fun _ => 7, 3⟩ 6).2.1 4 (by decide) (by decide),
    (ensure_init_up_to_spec ⟨8, fun _ => 7, 3⟩ 6).2.2 5 (by decide)⟩

/-! ## WAL lemmas and claims C3, C10 -/

theorem psums_length (l : List Nat) : (psums l).length = l.length := by
  induction l with
  | nil => rfl
  | cons x xs ih => simp [psums, ih]

theorem psums_getD : ∀ (l : List Nat) (i : Nat), i < l.length →
    (psums l).getD i 0 = (l.take i).sum := by
  intro l
  induction l with
  | nil => intro i h; simp at h
  | cons x xs ih =>
    intro i h
    cases i with
    | zero => simp [psums]
    | succ i' =>
      have hi' : i' < xs.length := by simpa using h
      have hlt : i' < (psums xs).length := by rw [psums_length]; exact hi'
      simp only [psums, List.getD_cons_succ, List.take_succ_cons, List.sum_cons]
      rw [List.getD_eq_getElem?_getD, List.getElem?_map,
        List.getElem?_eq_getElem hlt]
      have hidx : (psums xs)[i'] = (psums xs).getD i' 0 := by
        rw [List.getD_eq_getElem?_getD, List.getElem?_eq_getElem hlt]
        rfl
      rw [Option.map_some', Option.getD_some, hidx, ih i' hi']

theorem sum_take_mono (l : List Nat) : ∀ i j, i ≤ j →
    (l.take i).sum ≤ (l.take j).sum := by
  induction l with
  | nil => intro i j _; simp
  | cons x xs ih =>
    intro i j hij
    cases i with
    | zero => simp
    | succ i' =>
      cases j with
      | zero => omega
      | succ j' =>
        simp only [List.take_succ_cons, List.sum_cons]
        exact Nat.add_le_add_left (ih i' j' (by omega)) x

theorem sum_take_succ (l : List Nat) (i : Nat) (h : i < l.length) :
    (l.take (i + 1)).sum = (l.take i).sum + l.getD i 0 := by
  induction l generalizing i with
  | nil => simp at h
  | cons x xs ih =>
    cases i with
    | zero => simp
    | succ i' =>
      simp only [List.take_succ_cons, List.sum_cons, List.getD_cons_succ]
      rw [ih i' (by simpa using h)]
      omega

theorem runAppends_length (db : Nat) :
    ∀ (ps : List (List Nat)) (st : Core.CoreStorage),
      (Core.runAppends db st ps).2.length = ps.length := by
  intro ps
  induction ps with
  | nil => intro st; rfl
  | cons p rest ih =>
    intro st
    simp only [Core.runAppends, List.length_cons]
    rw [ih]

/-- The LSNs handed out by a run of appends are the tail offset at the
start plus the partial sums of the payload lengths, provided the u64 tail
does not overflow. -/
theorem runAppends_eq_psums (db : Nat) :
    ∀ (ps : List (List Nat)) (st : Core.CoreStorage),
      (st.wal_offsets db).getD 0 + (ps.map List.length).sum < 2 ^ 64 →
      (Core.runAppends db st ps).2 =
        (psums (ps.map List.length)).map
          (fun s => (st.wal_offsets db).getD 0 + s) := by
  intro ps
  induction ps with
  | nil => intro st _; simp [Core.runAppends, psums]
  | cons p rest ih =>
    intro st hb
    simp only [List.map_cons, List.sum_cons] at hb
    have hlt : (st.wal_offsets db).getD 0 + p.length < 2 ^ 64 := by omega
    have hoff : ((Core.append_wal st db p).1.wal_offsets db).getD 0 =
        (st.wal_offsets db).getD 0 + p.length := by
      simp [Core.append_wal]
      omega
    have hbound : ((Core.append_wal st db p).1.wal_offsets db).getD 0 +
        (rest.map List.length).sum < 2 ^ 64 := by
      rw [hoff]; omega
    have hrest := ih (Core.append_wal st db p).1 hbound
    simp only [Core.runAppends, psums, List.map_cons, List.map_map]
    rw [hrest, hoff]
    refine congrArg₂ _ rfl ?_
    apply List.map_congr_left
    intro s _
    simp only [Function.comp]
    omega

/-- A resident backend with empty caches and a fresh WAL tail map. -/
def freshCore : Core.CoreStorage :=
  ⟨0, "d", "w", fun _ => none, fun _ => none, fun _ => none, []⟩

/-- **C3**: from a fresh tail, three sequential `append_wal` calls for one
`db_id` with payload lengths `l1, l2, l3` return LSNs `0, l1, l1 + l2`;
and for any sequence of appends (with no u64 tail overflow) the byte
ranges `[lsn_i, lsn_i + l_i)` are pairwise non-overlapping. -/
theorem append_wal_lsn_monotone (st : Core.CoreStorage) (db : Nat)
    (hfresh : st.wal_offsets db = none) :
    (∀ p1 p2 p3 : List Nat,
      p1.length + p2.length + p3.length < 2 ^ 64 →
      (Core.runAppends db st [p1, p2, p3]).2 =
        [0, p1.length, p1.length + p2.length]) ∧
    (∀ ps : List (List Nat), (ps.map List.length).sum < 2 ^ 64 →
      ∀ i j, i < ps.length → j < ps.length → i ≠ j →
        ∀ x,
          (Core.runAppends db st ps).2.getD i 0 ≤ x →
          x < (Core.runAppends db st ps).2.getD i 0 + (ps.getD i []).length →
          ¬((Core.runAppends db st ps).2.getD j 0 ≤ x ∧
            x < (Core.runAppends db st ps).2.getD j 0 +
              (ps.getD j []).length)) := by
  have hz : (st.wal_offsets db).getD 0 = 0 := by rw [hfresh]; rfl
  have hmain : ∀ ps : List (List Nat), (ps.map List.length).sum < 2 ^ 64 →
      ∀ k, k < ps.length →
        (Core.runAppends db st ps).2.getD k 0 =
          ((ps.map List.length).take k).sum := by
    intro ps hsum k hk
    have heq := runAppends_eq_psums db ps st (by rw [hz]; omega)
    have hk1 : k < (ps.map List.length).length := by
      rw [List.length_map]; exact hk
    have hk' : k < (psums (ps.map List.length)).length := by
      rw [psums_length]; exact hk1
    rw [heq, hz, List.getD_eq_getElem?_getD, List.getElem?_map,
      List.getElem?_eq_getElem hk', Option.map_some', Option.getD_some]
    have hidx : (psums (ps.map List.length))[k] =
        (psums (ps.map List.length)).getD k 0 := by
      rw [List.getD_eq_getElem?_getD, List.getElem?_eq_getElem hk']
      rfl
    rw [hidx, psums_getD _ k hk1]
    omega
  have hlen : ∀ (ps : List (List Nat)) k, k < ps.length →
      (ps.getD k []).length = (ps.map List.length).getD k 0 := by
    intro ps k hk
    have hk1 : k < (ps.map List.length).length := by
      rw [List.length_map]; exact hk
    rw [List.getD_eq_getElem?_getD, List.getD_eq_getElem?_getD,
      List.getElem?_map, List.getElem?_eq_getElem hk]
    rfl
  constructor
  · intro p1 p2 p3 hsum
    have heq := runAppends_eq_psums db [p1, p2, p3] st
      (by rw [hz]; simp; omega)
    rw [heq, hz]
    simp [psums]
  · intro ps hsum i j hi hj hij x hx1 hx2
    rintro ⟨hy1, hy2⟩
    rw [hmain ps hsum i hi] at hx1 hx2
    rw [hmain ps hsum j hj] at hy1 hy2
    rw [hlen ps i hi] at hx2
    rw [hlen ps j hj] at hy2
    have hi1 : i < (ps.map List.length).length := by rw [List.length_map]; exact hi
    have hj1 : j < (ps.map List.length).length := by rw [List.length_map]; exact hj
    rcases Nat.lt_or_ge i j with hlt | hge
    · have hmono := sum_take_mono (ps.map List.length) (i + 1) j hlt
      have hsucc := sum_take_succ (ps.map List.length) i hi1
      omega
    · have hlt' : j < i := by omega
      have hmono := sum_take_mono (ps.map List.length) (j + 1) i hlt'
      have hsucc := sum_take_succ (ps.map List.length) j hj1
      omega

/-- Witness for `append_wal_lsn_monotone`: spec scenario 3 — payload
lengths 10, 15, 7 yield LSNs 0, 10, 25. -/
theorem append_wal_lsn_monotone_witness :
    (Core.runAppends 7 freshCore
      [List.replicate 10 0, List.replicate 15 0, List.replicate 7 0]).2 =
      [0, 10, 25] := by
  have h := (append_wal_lsn_monotone freshCore 7 rfl).1
    (List.replicate 10 0) (List.replicate 15 0) (List.replicate 7 0)
    (by simp)
  simpa using h

/-- **C10**: `append_wal` on the resident backend issues no kernel
operation and performs no file I/O: the file-handle caches, the I/O trace
and every other field are untouched, and only the `wal_offsets` entry for
`db_id` changes, advancing by the payload length. -/
theorem append_wal_frame (st : Core.CoreStorage) (db : Nat)
    (payload : List Nat)
    (hov : (st.wal_offsets db).getD 0 + payload.length < 2 ^ 64) :
    (Core.append_wal st db payload).1.data_files = st.data_files ∧
    (Core.append_wal st db payload).1.wal_files = st.wal_files ∧
    (Core.append_wal st db payload).1.ioTrace = st.ioTrace ∧
    (Core.append_wal st db payload).1.base_data_dir = st.base_data_dir ∧
    (Core.append_wal st db payload).1.base_wal_dir = st.base_wal_dir ∧
    (Core.append_wal st db payload).1.core_id = st.core_id ∧
    (Core.append_wal st db payload).1.wal_offsets db =
      some ((st.wal_offsets db).getD 0 + payload.length) ∧
    (∀ d, d ≠ db → (Core.append_wal st db payload).1.wal_offsets d =
      st.wal_offsets d) ∧
    (Core.append_wal st db payload).2 =
      Except.ok ⟨(st.wal_offsets db).getD 0⟩ := by
  refine ⟨rfl, rfl, rfl, rfl, rfl, rfl, ?_, ?_, rfl⟩
  · simp [Core.append_wal]
    omega
  · intro d hd
    simp [Core.append_wal, hd]

/-- Witness for `append_wal_frame` at a concrete state and payload. -/
theorem append_wal_frame_witness :
    (Core.append_wal freshCore 3 [1, 2]).1.ioTrace = freshCore.ioTrace ∧
    (Core.append_wal freshCore 3 [1, 2]).1.wal_offsets 3 = some 2 ∧
    (Core.append_wal freshCore 3 [1, 2]).2 = Except.ok ⟨0⟩ :=
  ⟨(append_wal_frame freshCore 3 [1, 2] (by decide)).2.2.1,
    (append_wal_frame freshCore 3 [1, 2] (by decide)).2.2.2.2.2.2.1,
    (append_wal_frame freshCore 3 [1, 2] (by decide)).2.2.2.2.2.2.2.2⟩

/-! ## Claims C4 (addressing) and C9 (short transfers) -/

/-- A resident backend whose data-file cache already holds `(db 0, space 1)`. -/
def hitCore : Core.CoreStorage :=
  ⟨0, "d", "w", fun kk => if kk = (0, 1) then some () else none,
    fun _ => none, fun _ => none, []⟩

/-- **C4** (amended): page-to-location resolution is pure and deterministic
in both backends, but the mapping differs.  `UringStorage` maps
`page_no = k * 131072 + r` to segment file `k` at byte offset `r * 8192`;
the resident backend reads a single per-`(db_id, space_id)` file at byte
offset `page_no * 8192`, with no segment decomposition. -/
theorem locate_mapping :
    (∀ (base : String) (sp k r : Nat), r < Uring.PAGES_PER_SEGMENT →
      Uring.get_location base ⟨sp, k * Uring.PAGES_PER_SEGMENT + r⟩ =
        (base ++ "/" ++ ("space_" ++ toString sp ++ "_seg_" ++
          Uring.pad4 k ++ ".db"), r * Uring.PAGE_SIZE)) ∧
    (∀ (st : Core.CoreStorage) (disk : Disk) (pid : Core.PageId)
        (buf : AlignedBuf) (openO : Option IOErr) (rO : KOutcome),
      st.data_files (pid.db_id, pid.space_id) = some () →
      (Core.read_page st disk pid buf openO rO).1.ioTrace =
        st.ioTrace ++ [Core.IOEvent.readAt
          (Core.dataPath st pid.db_id pid.space_id)
          (pid.page_no * Core.PAGE_SIZE)]) := by
  constructor
  · intro base sp k r hr
    have hP : Uring.PAGES_PER_SEGMENT = 131072 := rfl
    rw [hP] at hr
    have h1 : (k * 131072 + r) / 131072 = k := by omega
    have h2 : (k * 131072 + r) % 131072 = r := by omega
    simp only [Uring.get_location, hP, h1, h2]
  · intro st disk pid buf openO rO hcache
    have hg : Core.get_data_file st pid.db_id pid.space_id openO =
        (st, Except.ok ()) := by
      unfold Core.get_data_file
      rw [hcache]
    unfold Core.read_page
    rw [hg]
    cases rO with
    | err e => rfl
    | ok n => rfl

/-- Witness for `locate_mapping` at concrete inputs. -/
theorem locate_mapping_witness :
    Uring.get_location "b" ⟨1, 1 * Uring.PAGES_PER_SEGMENT + 5⟩ =
      ("b" ++ "/" ++ ("space_" ++ toString 1 ++ "_seg_" ++ Uring.pad4 1 ++
        ".db"), 5 * Uring.PAGE_SIZE) ∧
    (Core.read_page hitCore (fun _ _ => 0) ⟨0, 1, 3⟩
        (⟨8192, fun _ => 0, 0⟩ : AlignedBuf) none (KOutcome.ok 8192)).1.ioTrace =
      hitCore.ioTrace ++ [Core.IOEvent.readAt
        (Core.dataPath hitCore 0 1) (3 * Core.PAGE_SIZE)] :=
  ⟨locate_mapping.1 "b" 1 1 5 (by decide),
    locate_mapping.2 hitCore (fun _ _ => 0) ⟨0, 1, 3⟩
      (⟨8192, fun _ => 0, 0⟩ : AlignedBuf) none (KOutcome.ok 8192) rfl⟩

/-- **C4 counterexample**: in the resident backend, `page_no = 131072`
(that is `k = 1, r = 0`) is read at byte offset `131072 * 8192 = 2 ^ 30`
of the same single per-space file — not at byte offset `r * 8192 = 0`
within a separate segment file `k = 1` — refuting "in every backend …
the page maps to segment number k and byte offset r*8192 within that
segment file". -/
theorem core_no_segment_decomposition :
    (Core.read_page hitCore (fun _ _ => 0) ⟨0, 1, 131072⟩
        (⟨8192, fun _ => 0, 0⟩ : AlignedBuf) none (KOutcome.ok 8192)).1.ioTrace =
      [Core.IOEvent.readAt "d/db_0/space_1.dat" 1073741824] ∧
    (1073741824 : Nat) ≠ 0 * 8192 := by
  exact ⟨rfl, by decide⟩

/-- **C9** (amended): `UringStorage` reports a kernel transfer of fewer
than `PAGE_SIZE` bytes as a dedicated short-write (`WriteZero`) or
short-read (`UnexpectedEof`) error, distinct in kind from the
checksum-mismatch error (`InvalidData`) and distinct from pass-through
kernel errors (which are returned unchanged); the `StorageError` taxonomy
keeps `ShortRead` apart from `Io` and `Corruption`.  The resident backend
performs no short-transfer check (see the counterexample). -/
theorem short_transfer_reported :
    (∀ (base : String) (disk : Disk) (pid : Uring.PageId) (buf : AlignedBuf)
        (n : Nat), n ≠ Uring.PAGE_SIZE →
      (Uring.write_page base disk pid buf none (KOutcome.ok n)).1.1 =
        Except.error (Uring.shortWriteErr n)) ∧
    (∀ (base : String) (disk : Disk) (pid : Uring.PageId) (buf : AlignedBuf)
        (n : Nat), n ≠ Uring.PAGE_SIZE →
      (Uring.read_page base disk pid buf none (KOutcome.ok n)).1 =
        Except.error (Uring.shortReadErr n)) ∧
    (∀ (base : String) (disk : Disk) (pid : Uring.PageId) (buf : AlignedBuf)
        (e : IOErr),
      (Uring.read_page base disk pid buf none (KOutcome.err e)).1 =
        Except.error e ∧
      (Uring.write_page base disk pid buf none (KOutcome.err e)).1.1 =
        Except.error e) ∧
    (∀ n : Nat, (Uring.shortWriteErr n).kind ≠ Uring.corruptionErr.kind ∧
      (Uring.shortReadErr n).kind ≠ Uring.corruptionErr.kind ∧
      (Uring.shortReadErr n).kind ≠ (Uring.shortWriteErr n).kind) ∧
    (∀ (e : IOErr) (pid : Core.PageId),
      Core.StorageError.ShortRead ≠ Core.StorageError.Io e ∧
      Core.StorageError.ShortRead ≠ Core.StorageError.Corruption pid) := by
  refine ⟨?_, ?_, ?_, ?_, ?_⟩
  · intro base disk pid buf n hn
    simp only [Uring.write_page]
    rw [if_neg hn]
  · intro base disk pid buf n hn
    simp only [Uring.read_page]
    rw [if_pos hn]
  · intro base disk pid buf e
    exact ⟨rfl, rfl⟩
  · intro n
    exact ⟨(fun h => nomatch h), (fun h => nomatch h), (fun h => nomatch h)⟩
  · intro e pid
    exact ⟨(fun h => nomatch h), (fun h => nomatch h)⟩

/-- Witness for `short_transfer_reported` at a concrete short transfer. -/
theorem short_transfer_reported_witness :
    (Uring.write_page "b" (fun _ _ => 0) ⟨1, 0⟩
        (⟨8192, fun _ => 0, 8192⟩ : AlignedBuf) none (KOutcome.ok 100)).1.1 =
      Except.error (Uring.shortWriteErr 100) ∧
    (Uring.read_page "b" (fun _ _ => 0) ⟨1, 0⟩
        (⟨8192, fun _ => 0, 0⟩ : AlignedBuf) none (KOutcome.ok 100)).1 =
      Except.error (Uring.shortReadErr 100) :=
  ⟨short_transfer_reported.1 "b" (fun _ _ => 0) ⟨1, 0⟩
      (⟨8192, fun _ => 0, 8192⟩ : AlignedBuf) 100 (by decide),
    short_transfer_reported.2.1 "b" (fun _ _ => 0) ⟨1, 0⟩
      (⟨8192, fun _ => 0, 0⟩ : AlignedBuf) 100 (by decide)⟩

/-- **C9 counterexample**: the resident backend's `write_page` reports
success when the kernel accepted only 100 of the 8192 page bytes (its
`read_page` likewise has no short-transfer check) — refuting "every
backend reports a short-read/short-write error". -/
theorem core_short_write_not_reported :
    (Core.write_page hitCore (fun _ _ => 0) ⟨0, 1, 0⟩
        (⟨8192, fun _ => 0, 8192⟩ : AlignedBuf) none (KOutcome.ok 100)).2.2 =
      Except.ok () ∧ (100 : Nat) < Core.PAGE_SIZE := by
  exact ⟨rfl, by decide⟩

/-! ## Path lemmas for `UringStorage` -/

theorem ensure_cap (b : AlignedBuf) (n : Nat) :
    (b.ensure_init_up_to n).cap = b.cap := by
  by_cases h : b.init < min n b.cap
  · rw [ensure_pos b n h]
  · rw [ensure_neg b n h]

theorem stamped_cap (buf : AlignedBuf) : (Uring.stamped buf).cap = buf.cap := by
  unfold Uring.stamped
  exact ensure_cap buf _

theorem stamped_init (buf : AlignedBuf) (hcap : buf.cap = Uring.PAGE_SIZE)
    (hinit : buf.init ≤ buf.cap) :
    (Uring.stamped buf).init = Uring.PAGE_SIZE := by
  unfold Uring.stamped
  show (buf.ensure_init_up_to Uring.PAGE_SIZE).init = Uring.PAGE_SIZE
  by_cases h : buf.init < min Uring.PAGE_SIZE buf.cap
  · rw [ensure_pos _ _ h]
    show min Uring.PAGE_SIZE buf.cap = Uring.PAGE_SIZE
    omega
  · rw [ensure_neg _ _ h]
    omega

theorem stamped_data_ge4 (buf : AlignedBuf) (i : Nat) (hi : 4 ≤ i) :
    (Uring.stamped buf).data i =
      (buf.ensure_init_up_to Uring.PAGE_SIZE).data i := by
  unfold Uring.stamped
  exact if_neg (by omega)

theorem stamped_data_lt4 (buf : AlignedBuf) (i : Nat) (hi : i < 4) :
    (Uring.stamped buf).data i =
      Uring.beByte (crc32 (Uring.payloadSlice
        (buf.ensure_init_up_to Uring.PAGE_SIZE).data)) i := by
  unfold Uring.stamped
  exact if_pos hi

theorem payloadSlice_stamped (buf : AlignedBuf) :
    Uring.payloadSlice (Uring.stamped buf).data =
      Uring.payloadSlice (buf.ensure_init_up_to Uring.PAGE_SIZE).data := by
  unfold Uring.payloadSlice
  apply List.map_congr_left
  intro i _
  exact stamped_data_ge4 buf (4 + i) (by omega)

/-- Decoding the four stamped big-endian header bytes recovers the value. -/
theorem be32_header (c : Nat) (hc : c < 2 ^ 32) (g : Nat → Nat) :
    Uring.be32 (fun i => if i < 4 then Uring.beByte c i else g i) = c := by
  simp only [Uring.be32, Uring.beByte]
  norm_num
  omega

/-- On every control path, `write_page` hands back the stamped buffer. -/
theorem write_page_buf (base : String) (disk : Disk) (pid : Uring.PageId)
    (buf : AlignedBuf) (openO : Option IOErr) (wO : KOutcome) :
    (Uring.write_page base disk pid buf openO wO).1.2 = Uring.stamped buf := by
  cases openO with
  | some e => rfl
  | none =>
    cases wO with
    | err e => rfl
    | ok n =>
      simp only [Uring.write_page]
      split <;> rfl

/-- A fully-transferred `write_page` succeeds and stores the stamped page. -/
theorem write_page_ok_disk (base : String) (disk : Disk) (pid : Uring.PageId)
    (buf : AlignedBuf) :
    Uring.write_page base disk pid buf none (KOutcome.ok Uring.PAGE_SIZE) =
      ((Except.ok (), Uring.stamped buf),
        diskWrite disk (Uring.get_location base pid).1
          (Uring.get_location base pid).2 (Uring.stamped buf).data
          (min Uring.PAGE_SIZE (Uring.stamped buf).init)) := by
  rfl

/-- The buffer `read_page` returns on a full `PAGE_SIZE` transfer: the
first `PAGE_SIZE` bytes come from the file, and `init` is set to
`min PAGE_SIZE cap`. -/
def readResultBuf (base : String) (disk : Disk) (pid : Uring.PageId)
    (buf : AlignedBuf) : AlignedBuf :=
  { cap := buf.cap,
    data := fun i =>
      if i < Uring.PAGE_SIZE
      then disk (Uring.get_location base pid).1
        ((Uring.get_location base pid).2 + i)
      else buf.data i,
    init := min Uring.PAGE_SIZE buf.cap }

/-- Characterization of `read_page` on the full-transfer path: the stored
header is compared against the recomputed payload CRC. -/
theorem read_page_full (base : String) (disk : Disk) (pid : Uring.PageId)
    (buf : AlignedBuf) :
    Uring.read_page base disk pid buf none (KOutcome.ok Uring.PAGE_SIZE) =
      (if Uring.be32 (readResultBuf base disk pid buf).data ≠
          crc32 (Uring.payloadSlice (readResultBuf base disk pid buf).data)
       then (Except.error Uring.corruptionErr, readResultBuf base disk pid buf)
       else (Except.ok (), readResultBuf base disk pid buf)) := by
  simp only [Uring.read_page, readResultBuf]
  rw [if_neg (fun h : ¬ Uring.PAGE_SIZE = Uring.PAGE_SIZE => h rfl)]
  rw [set_init_then_len]

/-! ## Claim C2: checksum stamping and verification -/

theorem set_init_data (b : AlignedBuf) (n : Nat) :
    (b.set_init n).data = b.data := by
  unfold AlignedBuf.set_init
  split <;> rfl

/-- The stored header of a stamped buffer decodes to the payload CRC. -/
theorem be32_stamped (buf : AlignedBuf) :
    Uring.be32 (Uring.stamped buf).data =
      crc32 (Uring.payloadSlice (buf.ensure_init_up_to Uring.PAGE_SIZE).data) :=
  be32_header _ (crc32_lt _) _

/-- `CoreStorage::read_page` with a cached handle and a kernel transfer of
`n` bytes: the buffer is filled from the file and `init` advanced, and the
result is unconditionally `Ok`. -/
theorem core_read_ok (st : Core.CoreStorage) (disk : Disk) (pid : Core.PageId)
    (buf : AlignedBuf) (n : Nat)
    (hcache : st.data_files (pid.db_id, pid.space_id) = some ()) :
    (Core.read_page st disk pid buf none (KOutcome.ok n)).2 =
      (AlignedBuf.set_init
        { buf with
          data := fun i =>
            if i < n
            then disk (Core.dataPath st pid.db_id pid.space_id)
              (pid.page_no * Core.PAGE_SIZE + i)
            else buf.data i } n,
        Except.ok ()) := by
  have hg : Core.get_data_file st pid.db_id pid.space_id none =
      (st, Except.ok ()) := by
    unfold Core.get_data_file
    rw [hcache]
  unfold Core.read_page
  rw [hg]

/-- **C2** (amended): `UringStorage::write_page` stamps the page before any
I/O — on every control path the returned buffer carries, big-endian in
bytes `[0,4)`, the CRC-32 of its own payload — and
`UringStorage::read_page` recomputes the payload CRC on every full read
and fails with the checksum-mismatch error (`InvalidData`, not carrying
the page id) exactly when it differs from the stored header.  The resident
backend's `read_page`, however, returns success without any verification,
and its `write_page` stamps nothing. -/
theorem checksum_stamp_and_verify :
    (∀ (base : String) (disk : Disk) (pid : Uring.PageId) (buf : AlignedBuf)
        (openO : Option IOErr) (wO : KOutcome),
      (Uring.write_page base disk pid buf openO wO).1.2 = Uring.stamped buf ∧
      (∀ i, i < 4 →
        (Uring.write_page base disk pid buf openO wO).1.2.data i =
          Uring.beByte (crc32 (Uring.payloadSlice
            (Uring.write_page base disk pid buf openO wO).1.2.data)) i)) ∧
    (∀ (base : String) (disk : Disk) (pid : Uring.PageId) (buf : AlignedBuf),
      ((Uring.read_page base disk pid buf none
          (KOutcome.ok Uring.PAGE_SIZE)).1 = Except.ok () ↔
        Uring.be32 (readResultBuf base disk pid buf).data =
          crc32 (Uring.payloadSlice (readResultBuf base disk pid buf).data)) ∧
      (Uring.be32 (readResultBuf base disk pid buf).data ≠
          crc32 (Uring.payloadSlice (readResultBuf base disk pid buf).data) →
        Uring.read_page base disk pid buf none (KOutcome.ok Uring.PAGE_SIZE) =
          (Except.error Uring.corruptionErr, readResultBuf base disk pid buf))) ∧
    (∀ (st : Core.CoreStorage) (disk : Disk) (pid : Core.PageId)
        (buf : AlignedBuf) (n : Nat),
      st.data_files (pid.db_id, pid.space_id) = some () →
      (Core.read_page st disk pid buf none (KOutcome.ok n)).2.2 =
        Except.ok ()) ∧
    (∀ (st : Core.CoreStorage) (disk : Disk) (pid : Core.PageId)
        (buf : AlignedBuf) (wO : KOutcome),
      st.data_files (pid.db_id, pid.space_id) = some () →
      (Core.write_page st disk pid buf none wO).2.1 = buf) := by
  refine ⟨?_, ?_, ?_, ?_⟩
  · intro base disk pid buf openO wO
    refine ⟨write_page_buf base disk pid buf openO wO, ?_⟩
    intro i hi
    rw [write_page_buf base disk pid buf openO wO]
    rw [stamped_data_lt4 buf i hi, payloadSlice_stamped buf]
  · intro base disk pid buf
    have hrf := read_page_full base disk pid buf
    by_cases h : Uring.be32 (readResultBuf base disk pid buf).data =
        crc32 (Uring.payloadSlice (readResultBuf base disk pid buf).data)
    · rw [if_neg (fun hne => hne h)] at hrf
      constructor
      · constructor
        · intro _
          exact h
        · intro _
          rw [hrf]
      · intro hne
        exact absurd h hne
    · rw [if_pos h] at hrf
      constructor
      · constructor
        · intro hok
          rw [hrf] at hok
          exact absurd hok (fun hh => nomatch hh)
        · intro he
          exact absurd he h
      · intro _
        exact hrf
  · intro st disk pid buf n hcache
    have := core_read_ok st disk pid buf n hcache
    rw [show (Core.read_page st disk pid buf none (KOutcome.ok n)).2.2 =
      ((Core.read_page st disk pid buf none (KOutcome.ok n)).2).2 from rfl, this]
  · intro st disk pid buf wO hcache
    have hg : Core.get_data_file st pid.db_id pid.space_id none =
        (st, Except.ok ()) := by
      unfold Core.get_data_file
      rw [hcache]
    unfold Core.write_page
    rw [hg]
    cases wO with
    | err e => rfl
    | ok n => rfl

def beBytes_decode (c : Nat) (hc : c < 2 ^ 32) :
    Uring.beByte c 0 * 2 ^ 24 + Uring.beByte c 1 * 2 ^ 16 +
      Uring.beByte c 2 * 2 ^ 8 + Uring.beByte c 3 = c := by
  simp only [Uring.beByte]
  norm_num
  omega

/-- CRC of the constant-7 payload. -/
def constPayloadCrc : Nat := crc32 (Uring.payloadSlice (fun _ => 7))

/-- A correctly checksummed page whose payload bytes are all 7. -/
def goodPage : Nat → Nat := fun i =>
  if i < 4 then Uring.beByte constPayloadCrc i else 7

/-- `goodPage` with payload byte 100 flipped from 7 to 8. -/
def badPage : Nat → Nat := fun i => if i = 100 then 8 else goodPage i

/-- A disk holding the corrupted page at every location. -/
def badDisk : Disk := fun _ i => badPage i

/-- A fresh page-sized read buffer. -/
def bufZ : AlignedBuf := ⟨8192, fun _ => 0, 0⟩

/-- Any page image whose header stores `constPayloadCrc`, whose payload is
all 7 except one byte flipped to 8 at offset 100, fails verification. -/
theorem mismatch_generic (L : Nat → Nat)
    (h03 : ∀ k, k < 4 → L k = Uring.beByte constPayloadCrc k)
    (hsame : ∀ i, i < Uring.PAGE_SIZE - 4 → i ≠ 96 → L (4 + i) = 7)
    (hdiffv : L 100 = 8) :
    Uring.be32 L ≠ crc32 (Uring.payloadSlice L) := by
  have hbe : Uring.be32 L = constPayloadCrc := by
    unfold Uring.be32
    rw [h03 0 (by omega), h03 1 (by omega), h03 2 (by omega), h03 3 (by omega)]
    exact beBytes_decode _ (crc32_lt _)
  rw [hbe]
  have hne := crc32_map_range_ne (f := fun i => L (4 + i))
    (g := fun _ => 7) (n := Uring.PAGE_SIZE - 4) (j := 96) (by decide)
    (fun i hi hij => hsame i hi hij)
    (by show L (4 + 96) % 256 ≠ 7 % 256
        rw [show (4 + 96 : Nat) = 100 from rfl, hdiffv]
        decide)
  exact Ne.symm hne

/-- **C2 counterexample**: the resident backend's `read_page` returns
success on a page whose stored header does not match the CRC-32 of its
payload (payload byte 100 flipped) — a read path that skips verification,
refuting "every read_page recomputes the CRC-32 … with no read path that
skips verification". -/
theorem core_read_skips_verification :
    (Core.read_page hitCore badDisk ⟨0, 1, 0⟩ bufZ none
        (KOutcome.ok 8192)).2.2 = Except.ok () ∧
    Uring.be32 (Core.read_page hitCore badDisk ⟨0, 1, 0⟩ bufZ none
        (KOutcome.ok 8192)).2.1.data ≠
      crc32 (Uring.payloadSlice (Core.read_page hitCore badDisk ⟨0, 1, 0⟩
        bufZ none (KOutcome.ok 8192)).2.1.data) := by
  have hco := core_read_ok hitCore badDisk ⟨0, 1, 0⟩ bufZ 8192 rfl
  have hrb : (Core.read_page hitCore badDisk ⟨0, 1, 0⟩ bufZ none
      (KOutcome.ok 8192)).2.1.data =
      (fun i => if i < 8192
        then badDisk (Core.dataPath hitCore 0 1) (0 * Core.PAGE_SIZE + i)
        else bufZ.data i) := by
    simp only [hco, set_init_data]
  refine ⟨by simp only [hco], ?_⟩
  rw [hrb]
  apply mismatch_generic
  · intro k hk
    show (if k < 8192
      then badDisk (Core.dataPath hitCore 0 1) (0 * Core.PAGE_SIZE + k)
      else bufZ.data k) = Uring.beByte constPayloadCrc k
    rw [if_pos (by omega)]
    show badPage (0 * Core.PAGE_SIZE + k) = Uring.beByte constPayloadCrc k
    have hk' : 0 * Core.PAGE_SIZE + k = k := by omega
    rw [hk']
    unfold badPage goodPage
    rw [if_neg (by omega), if_pos hk]
  · intro i hi hij
    have hi8 : i < 8188 := by
      have : Uring.PAGE_SIZE - 4 = 8188 := rfl
      omega
    show (if 4 + i < 8192
      then badDisk (Core.dataPath hitCore 0 1) (0 * Core.PAGE_SIZE + (4 + i))
      else bufZ.data (4 + i)) = 7
    rw [if_pos (by omega)]
    show badPage (0 * Core.PAGE_SIZE + (4 + i)) = 7
    have hk' : 0 * Core.PAGE_SIZE + (4 + i) = 4 + i := by omega
    rw [hk']
    unfold badPage goodPage
    rw [if_neg (by omega), if_neg (by omega)]
  · show (if (100 : Nat) < 8192
      then badDisk (Core.dataPath hitCore 0 1) (0 * Core.PAGE_SIZE + 100)
      else bufZ.data 100) = 8
    rw [if_pos (by omega)]
    show badPage (0 * Core.PAGE_SIZE + 100) = 8
    have hk' : 0 * Core.PAGE_SIZE + 100 = 100 := by omega
    rw [hk']
    unfold badPage
    rw [if_pos rfl]

/-- Witness for `checksum_stamp_and_verify` at concrete inputs. -/
theorem checksum_stamp_and_verify_witness :
    (Uring.write_page "b" (fun _ _ => 0) ⟨1, 0⟩ bufZ none
        (KOutcome.ok 100)).1.2.data 0 =
      Uring.beByte (crc32 (Uring.payloadSlice
        (Uring.write_page "b" (fun _ _ => 0) ⟨1, 0⟩ bufZ none
          (KOutcome.ok 100)).1.2.data)) 0 ∧
    (Core.read_page hitCore badDisk ⟨0, 1, 5⟩ bufZ none
        (KOutcome.ok 17)).2.2 = Except.ok () :=
  ⟨(checksum_stamp_and_verify.1 "b" (fun _ _ => 0) ⟨1, 0⟩ bufZ none
      (KOutcome.ok 100)).2 0 (by decide),
    checksum_stamp_and_verify.2.2.1 hitCore badDisk ⟨0, 1, 5⟩ bufZ 17 rfl⟩

/-! ## Claims C6 (buffer return), C1 (round-trip), C5 (flip detection) -/

/-- The buffer `read_page` returns on any `Ok(n)` transfer. -/
theorem read_page_buf_ok (base : String) (disk : Disk) (pid : Uring.PageId)
    (buf : AlignedBuf) (n : Nat) :
    (Uring.read_page base disk pid buf none (KOutcome.ok n)).2 =
      { cap := buf.cap,
        data := fun i =>
          if i < n
          then disk (Uring.get_location base pid).1
            ((Uring.get_location base pid).2 + i)
          else buf.data i,
        init := min n buf.cap } := by
  simp only [Uring.read_page]
  rw [set_init_then_len]
  split
  · rfl
  · split <;> rfl

/-- **C6**: on every control path — success, open failure, kernel error,
short transfer — `write_page` and `read_page` hand exactly one buffer back:
the very buffer that was submitted (stamped, for writes), with capacity
preserved and with the initialized length that resulted from the transfer
(`min n cap` for a read of `n` bytes, unchanged on pre-transfer errors). -/
theorem buffer_returned_on_every_path :
    (∀ (base : String) (disk : Disk) (pid : Uring.PageId) (buf : AlignedBuf)
        (openO : Option IOErr) (wO : KOutcome),
      (Uring.write_page base disk pid buf openO wO).1.2 = Uring.stamped buf ∧
      (Uring.write_page base disk pid buf openO wO).1.2.cap = buf.cap) ∧
    (∀ (base : String) (disk : Disk) (pid : Uring.PageId) (buf : AlignedBuf)
        (openO : Option IOErr) (rO : KOutcome),
      (Uring.read_page base disk pid buf openO rO).2.cap = buf.cap ∧
      (∀ e, openO = some e →
        (Uring.read_page base disk pid buf openO rO).2 = buf) ∧
      (∀ e, openO = none → rO = KOutcome.err e →
        (Uring.read_page base disk pid buf openO rO).2 = buf) ∧
      (∀ n, openO = none → rO = KOutcome.ok n →
        (Uring.read_page base disk pid buf openO rO).2.init = min n buf.cap)) := by
  constructor
  · intro base disk pid buf openO wO
    refine ⟨write_page_buf base disk pid buf openO wO, ?_⟩
    rw [write_page_buf base disk pid buf openO wO]
    exact stamped_cap buf
  · intro base disk pid buf openO rO
    refine ⟨?_, ?_, ?_, ?_⟩
    · cases openO with
      | some e => rfl
      | none =>
        cases rO with
        | err e => rfl
        | ok n => rw [read_page_buf_ok]
    · intro e he
      subst he
      rfl
    · intro e ho hr
      subst ho
      subst hr
      rfl
    · intro n ho hr
      subst ho
      subst hr
      rw [read_page_buf_ok]

/-- Witness for `buffer_returned_on_every_path` at concrete inputs. -/
theorem buffer_returned_on_every_path_witness :
    (Uring.read_page "b" badDisk ⟨1, 0⟩ bufZ
      (some ⟨ErrorKind.notFound, "gone"⟩) (KOutcome.ok 3)).2 = bufZ ∧
    (Uring.read_page "b" badDisk ⟨1, 0⟩ bufZ none (KOutcome.ok 3)).2.init =
      min 3 bufZ.cap :=
  ⟨(buffer_returned_on_every_path.2 "b" badDisk ⟨1, 0⟩ bufZ
      (some ⟨ErrorKind.notFound, "gone"⟩) (KOutcome.ok 3)).2.1
      ⟨ErrorKind.notFound, "gone"⟩ rfl,
    (buffer_returned_on_every_path.2 "b" badDisk ⟨1, 0⟩ bufZ none
      (KOutcome.ok 3)).2.2.2 3 rfl rfl⟩

/-- The buffer of spec scenario 1: payload byte `i` is `i % 255`, fully
initialized. -/
def pageBuf : AlignedBuf := ⟨8192, fun i => i % 255, 8192⟩

/-- **C1**: a successful `write_page(pid, buf)` followed by a successful
`read_page(pid, buf2)` against the resulting disk returns payload bytes
`[4, 8192)` identical to the payload of the (stamped) buffer the write
returned. -/
theorem write_read_roundtrip (base : String) (disk : Disk)
    (pid : Uring.PageId) (buf buf2 : AlignedBuf)
    (hcap : buf.cap = Uring.PAGE_SIZE) (hinit : buf.init ≤ buf.cap)
    (hcap2 : buf2.cap = Uring.PAGE_SIZE) :
    (Uring.write_page base disk pid buf none
      (KOutcome.ok Uring.PAGE_SIZE)).1.1 = Except.ok () ∧
    (Uring.read_page base
      (Uring.write_page base disk pid buf none
        (KOutcome.ok Uring.PAGE_SIZE)).2
      pid buf2 none (KOutcome.ok Uring.PAGE_SIZE)).1 = Except.ok () ∧
    (∀ i, 4 ≤ i → i < Uring.PAGE_SIZE →
      (Uring.read_page base
        (Uring.write_page base disk pid buf none
          (KOutcome.ok Uring.PAGE_SIZE)).2
        pid buf2 none (KOutcome.ok Uring.PAGE_SIZE)).2.data i =
      (Uring.write_page base disk pid buf none
        (KOutcome.ok Uring.PAGE_SIZE)).1.2.data i) := by
  have hw := write_page_ok_disk base disk pid buf
  have hsinit : (Uring.stamped buf).init = Uring.PAGE_SIZE :=
    stamped_init buf hcap hinit
  have hdisk' : (Uring.write_page base disk pid buf none
      (KOutcome.ok Uring.PAGE_SIZE)).2 =
      diskWrite disk (Uring.get_location base pid).1
        (Uring.get_location base pid).2 (Uring.stamped buf).data
        (min Uring.PAGE_SIZE (Uring.stamped buf).init) := by
    rw [hw]
  have hrdata : ∀ i, i < Uring.PAGE_SIZE →
      (readResultBuf base (diskWrite disk (Uring.get_location base pid).1
        (Uring.get_location base pid).2 (Uring.stamped buf).data
        (min Uring.PAGE_SIZE (Uring.stamped buf).init)) pid buf2).data i =
      (Uring.stamped buf).data i := by
    intro i hi
    show (if i < Uring.PAGE_SIZE
      then diskWrite disk (Uring.get_location base pid).1
        (Uring.get_location base pid).2 (Uring.stamped buf).data
        (min Uring.PAGE_SIZE (Uring.stamped buf).init)
        (Uring.get_location base pid).1 ((Uring.get_location base pid).2 + i)
      else buf2.data i) = (Uring.stamped buf).data i
    rw [if_pos hi]
    show (if (Uring.get_location base pid).1 = (Uring.get_location base pid).1 ∧
        (Uring.get_location base pid).2 ≤ (Uring.get_location base pid).2 + i ∧
        (Uring.get_location base pid).2 + i < (Uring.get_location base pid).2 +
          min Uring.PAGE_SIZE (Uring.stamped buf).init
      then (Uring.stamped buf).data
        ((Uring.get_location base pid).2 + i - (Uring.get_location base pid).2)
      else disk (Uring.get_location base pid).1
        ((Uring.get_location base pid).2 + i)) = (Uring.stamped buf).data i
    rw [if_pos ⟨rfl, by omega, by omega⟩]
    congr 1
    omega
  have hceq : Uring.be32 (readResultBuf base (diskWrite disk
      (Uring.get_location base pid).1 (Uring.get_location base pid).2
      (Uring.stamped buf).data (min Uring.PAGE_SIZE (Uring.stamped buf).init))
      pid buf2).data =
      crc32 (Uring.payloadSlice (readResultBuf base (diskWrite disk
        (Uring.get_location base pid).1 (Uring.get_location base pid).2
        (Uring.stamped buf).data
        (min Uring.PAGE_SIZE (Uring.stamped buf).init)) pid buf2).data) := by
    have hstored : Uring.be32 (readResultBuf base (diskWrite disk
        (Uring.get_location base pid).1 (Uring.get_location base pid).2
        (Uring.stamped buf).data (min Uring.PAGE_SIZE (Uring.stamped buf).init))
        pid buf2).data = Uring.be32 (Uring.stamped buf).data := by
      unfold Uring.be32
      rw [hrdata 0 (by decide), hrdata 1 (by decide), hrdata 2 (by decide),
        hrdata 3 (by decide)]
    have hpay : Uring.payloadSlice (readResultBuf base (diskWrite disk
        (Uring.get_location base pid).1 (Uring.get_location base pid).2
        (Uring.stamped buf).data (min Uring.PAGE_SIZE (Uring.stamped buf).init))
        pid buf2).data = Uring.payloadSlice (Uring.stamped buf).data := by
      unfold Uring.payloadSlice
      apply List.map_congr_left
      intro t ht
      have ht' := List.mem_range.mp ht
      have h4 : (4 : Nat) ≤ Uring.PAGE_SIZE := by decide
      exact hrdata (4 + t) (by omega)
    rw [hstored, hpay, be32_stamped, payloadSlice_stamped]
  have hread := read_page_full base (diskWrite disk
    (Uring.get_location base pid).1 (Uring.get_location base pid).2
    (Uring.stamped buf).data (min Uring.PAGE_SIZE (Uring.stamped buf).init))
    pid buf2
  rw [if_neg (fun h => h hceq)] at hread
  refine ⟨by rw [hw], ?_, ?_⟩
  · rw [hdisk', hread]
  · intro i h4 hP
    rw [hdisk', hread]
    show (readResultBuf base (diskWrite disk (Uring.get_location base pid).1
      (Uring.get_location base pid).2 (Uring.stamped buf).data
      (min Uring.PAGE_SIZE (Uring.stamped buf).init)) pid buf2).data i =
      (Uring.write_page base disk pid buf none
        (KOutcome.ok Uring.PAGE_SIZE)).1.2.data i
    rw [hrdata i hP, write_page_buf]

/-- Witness for `write_read_roundtrip`: spec scenario 1 (page 88, payload
`i % 255`), checked at payload byte 100. -/
theorem write_read_roundtrip_witness :
    (Uring.write_page "b" (fun _ _ => 0) ⟨1, 88⟩ pageBuf none
      (KOutcome.ok Uring.PAGE_SIZE)).1.1 = Except.ok () ∧
    (Uring.read_page "b"
      (Uring.write_page "b" (fun _ _ => 0) ⟨1, 88⟩ pageBuf none
        (KOutcome.ok Uring.PAGE_SIZE)).2
      ⟨1, 88⟩ bufZ none (KOutcome.ok Uring.PAGE_SIZE)).1 = Except.ok () ∧
    (Uring.read_page "b"
      (Uring.write_page "b" (fun _ _ => 0) ⟨1, 88⟩ pageBuf none
        (KOutcome.ok Uring.PAGE_SIZE)).2
      ⟨1, 88⟩ bufZ none (KOutcome.ok Uring.PAGE_SIZE)).2.data 100 =
    (Uring.write_page "b" (fun _ _ => 0) ⟨1, 88⟩ pageBuf none
      (KOutcome.ok Uring.PAGE_SIZE)).1.2.data 100 :=
  ⟨(write_read_roundtrip "b" (fun _ _ => 0) ⟨1, 88⟩ pageBuf bufZ rfl
      (by decide) rfl).1,
    (write_read_roundtrip "b" (fun _ _ => 0) ⟨1, 88⟩ pageBuf bufZ rfl
      (by decide) rfl).2.1,
    (write_read_roundtrip "b" (fun _ _ => 0) ⟨1, 88⟩ pageBuf bufZ rfl
      (by decide) rfl).2.2 100 (by decide) (by decide)⟩

/-- Full-page initialization preserves byte-ness of the page contents. -/
theorem ensured_bytes (buf : AlignedBuf)
    (hbytes : ∀ i, i < Uring.PAGE_SIZE → buf.data i < 256) :
    ∀ i, i < Uring.PAGE_SIZE →
      (buf.ensure_init_up_to Uring.PAGE_SIZE).data i < 256 := by
  intro i hi
  by_cases h : buf.init < min Uring.PAGE_SIZE buf.cap
  · rw [ensure_pos _ _ h]
    show (if buf.init ≤ i ∧ i < min Uring.PAGE_SIZE buf.cap
      then 0 else buf.data i) < 256
    split
    · omega
    · exact hbytes i hi
  · rw [ensure_neg _ _ h]
    exact hbytes i hi

set_option maxRecDepth 4000 in
/-- **C5** (amended): write a page, then flip any single byte of the
on-disk payload region `[4, 8192)` to a different byte value; the next
`read_page` fails with the checksum-mismatch error — no single-byte
payload corruption is reported as success. -/
theorem single_flip_detected (base : String) (disk : Disk)
    (pid : Uring.PageId) (buf buf2 : AlignedBuf)
    (hcap : buf.cap = Uring.PAGE_SIZE) (hinit : buf.init ≤ buf.cap)
    (hbytes : ∀ i, i < Uring.PAGE_SIZE → buf.data i < 256)
    (j v : Nat) (hj4 : 4 ≤ j) (hjP : j < Uring.PAGE_SIZE) (hv : v < 256)
    (hvne : v ≠ (Uring.stamped buf).data j) (disk2 : Disk)
    (hd2 : ∀ q i, disk2 q i =
      if q = (Uring.get_location base pid).1 ∧
          i = (Uring.get_location base pid).2 + j
      then v
      else (Uring.write_page base disk pid buf none
        (KOutcome.ok Uring.PAGE_SIZE)).2 q i) :
    (Uring.write_page base disk pid buf none
      (KOutcome.ok Uring.PAGE_SIZE)).1.1 = Except.ok () ∧
    (Uring.read_page base disk2 pid buf2 none
      (KOutcome.ok Uring.PAGE_SIZE)).1 = Except.error Uring.corruptionErr := by
  have hw := write_page_ok_disk base disk pid buf
  have hsinit : (Uring.stamped buf).init = Uring.PAGE_SIZE :=
    stamped_init buf hcap hinit
  have hdisk' : (Uring.write_page base disk pid buf none
      (KOutcome.ok Uring.PAGE_SIZE)).2 =
      diskWrite disk (Uring.get_location base pid).1
        (Uring.get_location base pid).2 (Uring.stamped buf).data
        (min Uring.PAGE_SIZE (Uring.stamped buf).init) := by
    rw [hw]
  have hrdata2 : ∀ i, i < Uring.PAGE_SIZE →
      (readResultBuf base disk2 pid buf2).data i =
        (if i = j then v else (Uring.stamped buf).data i) := by
    intro i hi
    show (if i < Uring.PAGE_SIZE
      then disk2 (Uring.get_location base pid).1
        ((Uring.get_location base pid).2 + i)
      else buf2.data i) = (if i = j then v else (Uring.stamped buf).data i)
    rw [if_pos hi, hd2]
    by_cases hij : i = j
    · subst hij
      rw [if_pos ⟨rfl, rfl⟩, if_pos rfl]
    · rw [if_neg (by rintro ⟨-, h2⟩; exact hij (by omega)), if_neg hij]
      rw [hdisk']
      show (if (Uring.get_location base pid).1 = (Uring.get_location base pid).1 ∧
          (Uring.get_location base pid).2 ≤ (Uring.get_location base pid).2 + i ∧
          (Uring.get_location base pid).2 + i < (Uring.get_location base pid).2 +
            min Uring.PAGE_SIZE (Uring.stamped buf).init
        then (Uring.stamped buf).data
          ((Uring.get_location base pid).2 + i - (Uring.get_location base pid).2)
        else disk (Uring.get_location base pid).1
          ((Uring.get_location base pid).2 + i)) = (Uring.stamped buf).data i
      rw [if_pos ⟨rfl, by omega, by omega⟩]
      congr 1
      omega
  have hstored : Uring.be32 (readResultBuf base disk2 pid buf2).data =
      Uring.be32 (Uring.stamped buf).data := by
    unfold Uring.be32
    rw [hrdata2 0 (by decide), hrdata2 1 (by decide), hrdata2 2 (by decide),
      hrdata2 3 (by decide)]
    rw [if_neg (by omega), if_neg (by omega), if_neg (by omega),
      if_neg (by omega)]
  have hsb_lt : (Uring.stamped buf).data j < 256 := by
    rw [stamped_data_ge4 buf j hj4]
    exact ensured_bytes buf hbytes j hjP
  have h4P : (4 : Nat) ≤ Uring.PAGE_SIZE := by decide
  have hcomp_ne : crc32 (Uring.payloadSlice
      (readResultBuf base disk2 pid buf2).data) ≠
      crc32 (Uring.payloadSlice (Uring.stamped buf).data) := by
    refine crc32_map_range_ne (n := Uring.PAGE_SIZE - 4) (j := j - 4)
      (f := fun t => (readResultBuf base disk2 pid buf2).data (4 + t))
      (g := fun t => (Uring.stamped buf).data (4 + t)) (by omega) ?_ ?_
    · intro t ht htj
      show (readResultBuf base disk2 pid buf2).data (4 + t) =
        (Uring.stamped buf).data (4 + t)
      rw [hrdata2 (4 + t) (by omega), if_neg (by omega)]
    · show (readResultBuf base disk2 pid buf2).data (4 + (j - 4)) % 256 ≠
        (Uring.stamped buf).data (4 + (j - 4)) % 256
      have hj' : 4 + (j - 4) = j := by omega
      rw [hj', hrdata2 j hjP, if_pos rfl, Nat.mod_eq_of_lt hv,
        Nat.mod_eq_of_lt hsb_lt]
      exact hvne
  have hsbok : Uring.be32 (Uring.stamped buf).data =
      crc32 (Uring.payloadSlice (Uring.stamped buf).data) := by
    rw [be32_stamped, payloadSlice_stamped]
  have hne_total : Uring.be32 (readResultBuf base disk2 pid buf2).data ≠
      crc32 (Uring.payloadSlice (readResultBuf base disk2 pid buf2).data) := by
    rw [hstored, hsbok]
    exact Ne.symm hcomp_ne
  have hread := read_page_full base disk2 pid buf2
  rw [if_pos hne_total] at hread
  exact ⟨by rw [hw], by rw [hread]⟩

/-- Witness for `single_flip_detected`: page 88 with payload `i % 255`,
payload byte 100 flipped to 0. -/
theorem single_flip_detected_witness :
    (Uring.write_page "b" (fun _ _ => 0) ⟨1, 88⟩ pageBuf none
      (KOutcome.ok Uring.PAGE_SIZE)).1.1 = Except.ok () ∧
    (Uring.read_page "b"
      (fun q i =>
        if q = (Uring.get_location "b" ⟨1, 88⟩).1 ∧
            i = (Uring.get_location "b" ⟨1, 88⟩).2 + 100
        then 0
        else (Uring.write_page "b" (fun _ _ => 0) ⟨1, 88⟩ pageBuf none
          (KOutcome.ok Uring.PAGE_SIZE)).2 q i)
      ⟨1, 88⟩ bufZ none (KOutcome.ok Uring.PAGE_SIZE)).1 =
      Except.error Uring.corruptionErr :=
  single_flip_detected "b" (fun _ _ => 0) ⟨1, 88⟩ pageBuf bufZ rfl (by decide)
    (fun i _ => by show i % 255 < 256; omega) 100 0 (by decide) (by decide)
    (by decide) (by decide)
    (fun q i =>
      if q = (Uring.get_location "b" ⟨1, 88⟩).1 ∧
          i = (Uring.get_location "b" ⟨1, 88⟩).2 + 100
      then 0
      else (Uring.write_page "b" (fun _ _ => 0) ⟨1, 88⟩ pageBuf none
        (KOutcome.ok Uring.PAGE_SIZE)).2 q i)
    (fun q i => rfl)

/-- Reading any page-0 location of `badDisk` fails verification with the
constant checksum-mismatch error. -/
theorem badDisk_read_corrupt (base : String) (pid : Uring.PageId)
    (hoff : (Uring.get_location base pid).2 = 0) :
    (Uring.read_page base badDisk pid bufZ none
      (KOutcome.ok Uring.PAGE_SIZE)).1 = Except.error Uring.corruptionErr := by
  have hP : Uring.PAGE_SIZE = 8192 := rfl
  have hmis : Uring.be32 (readResultBuf base badDisk pid bufZ).data ≠
      crc32 (Uring.payloadSlice (readResultBuf base badDisk pid bufZ).data) := by
    apply mismatch_generic
    · intro k hk
      show (if k < Uring.PAGE_SIZE
        then badDisk (Uring.get_location base pid).1
          ((Uring.get_location base pid).2 + k)
        else bufZ.data k) = Uring.beByte constPayloadCrc k
      rw [if_pos (by omega), hoff]
      show badPage (0 + k) = Uring.beByte constPayloadCrc k
      rw [Nat.zero_add]
      unfold badPage goodPage
      rw [if_neg (by omega), if_pos hk]
    · intro i hi hij
      have hi8 : i < 8188 := by
        have h8 : Uring.PAGE_SIZE - 4 = 8188 := rfl
        omega
      show (if 4 + i < Uring.PAGE_SIZE
        then badDisk (Uring.get_location base pid).1
          ((Uring.get_location base pid).2 + (4 + i))
        else bufZ.data (4 + i)) = 7
      rw [if_pos (by omega), hoff]
      show badPage (0 + (4 + i)) = 7
      rw [Nat.zero_add]
      unfold badPage goodPage
      rw [if_neg (by omega), if_neg (by omega)]
    · show (if (100 : Nat) < Uring.PAGE_SIZE
        then badDisk (Uring.get_location base pid).1
          ((Uring.get_location base pid).2 + 100)
        else bufZ.data 100) = 8
      rw [if_pos (by omega), hoff]
      show badPage (0 + 100) = 8
      rw [Nat.zero_add]
      unfold badPage
      rw [if_pos rfl]
  have hread := read_page_full base badDisk pid bufZ
  rw [if_pos hmis] at hread
  rw [hread]

/-- **C5 counterexample**: the checksum-mismatch failure is one and the
same error value for two distinct page ids (`io::Error(InvalidData,
"Checksum mismatch")`), so it cannot carry the offending page id —
refuting "yields a Corruption(page_id) error carrying the offending page
id". -/
theorem corruption_error_no_page_id :
    (Uring.read_page "b" badDisk ⟨1, 0⟩ bufZ none
      (KOutcome.ok Uring.PAGE_SIZE)).1 =
    (Uring.read_page "b" badDisk ⟨2, 0⟩ bufZ none
      (KOutcome.ok Uring.PAGE_SIZE)).1 ∧
    (Uring.read_page "b" badDisk ⟨1, 0⟩ bufZ none
      (KOutcome.ok Uring.PAGE_SIZE)).1 = Except.error Uring.corruptionErr ∧
    (⟨1, 0⟩ : Uring.PageId) ≠ ⟨2, 0⟩ := by
  have h1 := badDisk_read_corrupt "b" ⟨1, 0⟩ rfl
  have h2 := badDisk_read_corrupt "b" ⟨2, 0⟩ rfl
  exact ⟨by rw [h1, h2], h1, by decide⟩
